import Mathlib

/-!
Shallow embedding of the Bowldem daily cricket puzzle game core
(daily puzzle selection, guess scoring, game state machine, statistics
aggregation, leaderboard ranking) together with theorems settling the
specification claims about it.

Source files embedded:
  * the main app component (`generateNewFeedback`, `playersLookup`);
  * `src/utils/dailyPuzzle.js` (`getPuzzleIndex`, `getPuzzleForToday`,
    `recordGuess`, `updateStatsOnComplete`, `MAX_GUESSES`);
  * `src/hooks/useLeaderboard.js` (`recordGuess` of `useDailyPuzzle`,
    `calculatePercentile`, `getTopEntries`, `submitToLeaderboard`);
  * `src/components/ArchiveModal.jsx` (`generateLocalArchive`).

Modelling conventions: JavaScript strings are `String`, numbers that are
used as integers are `Nat`/`Int`, `null`/`undefined` is `Option.none`,
JavaScript dates are integer day offsets from the epoch date
(`EPOCH_DATE = 2026-01-15`) at UTC midnight, and instants are
milliseconds from that same midnight.
-/

namespace Bowldem

/-- Game status values used by `dailyPuzzle.js`
(`not_started | in_progress | won | lost`). -/
inductive GameStatus
  | not_started
  | in_progress
  | won
  | lost
  deriving DecidableEq, Repr

/-- A player record from the `all_players.json` catalog: the fields read
by `generateNewFeedback` (`id`, `fullName`, `country`, `role`). -/
structure Player where
  id : String
  fullName : String
  country : String
  role : String
  deriving DecidableEq, Repr

/-- The `matchData` part of a puzzle read by `generateNewFeedback`. -/
structure MatchData where
  playersInMatch : List String
  targetPlayerTeam : String
  targetPlayerRole : String
  deriving DecidableEq, Repr

/-- A puzzle record: the fields read by `generateNewFeedback` and
puzzle selection. -/
structure Puzzle where
  id : String
  matchData : MatchData
  targetPlayer : String
  deriving DecidableEq, Repr

/-- The feedback record produced by `generateNewFeedback`. -/
structure Feedback where
  playerName : String
  country : String
  role : String
  playedInGame : Bool
  sameTeam : Bool
  sameRole : Bool
  isMVP : Bool
  deriving DecidableEq, Repr

/-- `playersLookup` is built by `map[player.id] = player` over the catalog,
so for duplicate ids the later entry wins; `findPlayer` then reads the map
(`playersLookup[playerId] || null`).  Embedded as a first-match search over
the reversed catalog list. -/
def findPlayer (players : List Player) (playerId : String) : Option Player :=
  players.reverse.find? (fun p => p.id == playerId)

/-- `generateNewFeedback(guessedPlayerKey, puzzleToUse)` from the main app
component.  Returns `none` when the guessed player is not in the catalog
(the `!guessedPlayer` early return; the puzzle argument is always present
here, so the `!puzzle` early return has no counterpart). -/
def generateNewFeedback (players : List Player) (guessedPlayerKey : String)
    (puzzle : Puzzle) : Option Feedback :=
  match findPlayer players guessedPlayerKey with
  | none => none
  | some guessedPlayer =>
      some {
        playerName := guessedPlayer.fullName
        country := guessedPlayer.country
        role := guessedPlayer.role
        playedInGame := puzzle.matchData.playersInMatch.contains guessedPlayerKey
        sameTeam := guessedPlayer.country == puzzle.matchData.targetPlayerTeam
        sameRole := guessedPlayer.role == puzzle.matchData.targetPlayerRole
        isMVP := guessedPlayerKey == puzzle.targetPlayer
      }

/-- C1: for every guessed candidate present in the player catalog and every
puzzle, scoring returns a feedback record with `playedInGame` true iff the
candidate id is in the participants list, `sameTeam` true iff the candidate's
team equals the target team, `sameRole` true iff the candidate's role equals
the target role, and `isMVP` true iff the candidate id equals the target
identity — each by exact equality. -/
theorem scoring_exact_equality (players : List Player) (key : String)
    (pz : Puzzle) (gp : Player)
    (hfind : findPlayer players key = some gp) :
    ∃ fb : Feedback, generateNewFeedback players key pz = some fb ∧
      (fb.playedInGame = true ↔ key ∈ pz.matchData.playersInMatch) ∧
      (fb.sameTeam = true ↔ gp.country = pz.matchData.targetPlayerTeam) ∧
      (fb.sameRole = true ↔ gp.role = pz.matchData.targetPlayerRole) ∧
      (fb.isMVP = true ↔ key = pz.targetPlayer) := by
  refine ⟨{ playerName := gp.fullName, country := gp.country, role := gp.role,
            playedInGame := pz.matchData.playersInMatch.contains key,
            sameTeam := gp.country == pz.matchData.targetPlayerTeam,
            sameRole := gp.role == pz.matchData.targetPlayerRole,
            isMVP := key == pz.targetPlayer }, ?_, ?_, ?_, ?_, ?_⟩
  · unfold generateNewFeedback
    rw [hfind]
  · simp [List.elem_iff]
  · simp
  · simp
  · simp

/-- Concrete catalog used by several witnesses: one player. -/
def kohli : Player :=
  { id := "kohli", fullName := "Virat Kohli", country := "India", role := "Batter" }

/-- Concrete well-formed puzzle: the target appears among the participants
and the stored target team/role agree with the catalog entry. -/
def puzzleWF : Puzzle :=
  { id := "p1"
    matchData := { playersInMatch := ["kohli"], targetPlayerTeam := "India",
                   targetPlayerRole := "Batter" }
    targetPlayer := "kohli" }

/-- Witness for C1 at a concrete catalog, candidate and puzzle. -/
theorem scoring_exact_equality_witness :
    findPlayer [kohli] "kohli" = some kohli ∧
    ∃ fb : Feedback, generateNewFeedback [kohli] "kohli" puzzleWF = some fb ∧
      (fb.playedInGame = true ↔ ("kohli" : String) ∈ puzzleWF.matchData.playersInMatch) ∧
      (fb.sameTeam = true ↔ kohli.country = puzzleWF.matchData.targetPlayerTeam) ∧
      (fb.sameRole = true ↔ kohli.role = puzzleWF.matchData.targetPlayerRole) ∧
      (fb.isMVP = true ↔ ("kohli" : String) = puzzleWF.targetPlayer) :=
  ⟨by decide, scoring_exact_equality [kohli] "kohli" puzzleWF kohli (by decide)⟩

/-- A puzzle whose participants list does not contain the target id: the
scoring function accepts it and the target-self-match invariant fails. -/
def puzzleNoTarget : Puzzle :=
  { id := "p2"
    matchData := { playersInMatch := [], targetPlayerTeam := "India",
                   targetPlayerRole := "Batter" }
    targetPlayer := "kohli" }

/-- C6 counterexample: `generateNewFeedback` does not enforce the invariant
`isMVP ⇒ playedInGame ∧ sameTeam ∧ sameRole` for every puzzle it accepts:
with a puzzle whose participants list omits the target id, the target's own
feedback has `isMVP = true` but `playedInGame = false`. -/
theorem target_self_match_cex :
    ¬ (∀ (players : List Player) (key : String) (pz : Puzzle) (fb : Feedback),
        generateNewFeedback players key pz = some fb → fb.isMVP = true →
        fb.playedInGame = true ∧ fb.sameTeam = true ∧ fb.sameRole = true) := by
  intro h
  have hfb : generateNewFeedback [kohli] "kohli" puzzleNoTarget =
      some { playerName := "Virat Kohli", country := "India", role := "Batter",
             playedInGame := false, sameTeam := true, sameRole := true,
             isMVP := true } := by decide
  exact absurd (h [kohli] "kohli" puzzleNoTarget _ hfb rfl).1 (by decide)

/-- C6 (amended): for a well-formed puzzle — its target id appears in the
participants list and the catalog entry resolved for the target id carries
the stored target team and role — a feedback record with `isMVP = true`
also has `playedInGame`, `sameTeam` and `sameRole` true. -/
theorem target_self_match (players : List Player) (key : String) (pz : Puzzle)
    (fb : Feedback)
    (hfb : generateNewFeedback players key pz = some fb)
    (hmvp : fb.isMVP = true)
    (hpart : pz.targetPlayer ∈ pz.matchData.playersInMatch)
    (hwf : ∀ q : Player, findPlayer players pz.targetPlayer = some q →
        q.country = pz.matchData.targetPlayerTeam ∧
        q.role = pz.matchData.targetPlayerRole) :
    fb.playedInGame = true ∧ fb.sameTeam = true ∧ fb.sameRole = true := by
  unfold generateNewFeedback at hfb
  rcases hfind : findPlayer players key with _ | gp
  · rw [hfind] at hfb
    exact absurd hfb (by simp)
  · rw [hfind] at hfb
    have hfb' := hfb.symm
    injection hfb with hfb
    subst hfb
    simp only [beq_iff_eq] at hmvp ⊢
    subst hmvp
    have hq := hwf gp hfind
    refine ⟨?_, ?_, ?_⟩
    · simpa [List.elem_iff] using hpart
    · simp [hq.1]
    · simp [hq.2]

/-- Witness for C6 (amended) at a concrete well-formed puzzle. -/
theorem target_self_match_witness :
    generateNewFeedback [kohli] "kohli" puzzleWF =
      some { playerName := "Virat Kohli", country := "India", role := "Batter",
             playedInGame := true, sameTeam := true, sameRole := true,
             isMVP := true } ∧
    ({ playerName := "Virat Kohli", country := "India", role := "Batter",
       playedInGame := true, sameTeam := true, sameRole := true,
       isMVP := true } : Feedback).playedInGame = true ∧
    ({ playerName := "Virat Kohli", country := "India", role := "Batter",
       playedInGame := true, sameTeam := true, sameRole := true,
       isMVP := true } : Feedback).sameTeam = true ∧
    ({ playerName := "Virat Kohli", country := "India", role := "Batter",
       playedInGame := true, sameTeam := true, sameRole := true,
       isMVP := true } : Feedback).sameRole = true :=
  ⟨by decide,
   target_self_match [kohli] "kohli" puzzleWF _ (by decide) (by decide)
     (by decide) (by decide)⟩

/-- `MAX_GUESSES = 5` from `dailyPuzzle.js`. -/
def MAX_GUESSES : Nat := 5

/-- The persisted game state of `dailyPuzzle.js` (`getDefaultGameState`):
`lastPlayedDate` and `lastPuzzleNumber` are nullable, dates are day offsets
from the epoch. -/
structure GameState where
  lastPlayedDate : Option Int
  lastPuzzleNumber : Option Nat
  guesses : List String
  gameStatus : GameStatus
  modalShown : Bool
  deriving DecidableEq, Repr

/-- `recordGuess(playerKey)` from `dailyPuzzle.js`: loads the state, returns
it unchanged unless the status is `in_progress`, otherwise pushes the key
onto `guesses` and saves.  Embedded as a pure state transformer. -/
def recordGuess (state : GameState) (playerKey : String) : GameState :=
  if state.gameStatus ≠ GameStatus.in_progress then state
  else { state with guesses := state.guesses ++ [playerKey] }

/-- The `{ newState, isGameOver, won }` record returned by the
`recordGuess` callback of `useDailyPuzzle`. -/
structure RecordGuessResult where
  newState : GameState
  isGameOver : Bool
  won : Bool
  deriving DecidableEq, Repr

/-- `recordGuess(playerKey, isCorrect)` from the `useDailyPuzzle` hook in
`useLeaderboard.js`: if the game is already completed it returns the state
unchanged; otherwise it appends the guess, decides `won`/`lost`
(`isLastGuess = newGuesses.length >= MAX_GUESSES`), and stores the new
status.  The `completeGame`/stats side effect is modelled separately by
`updateStatsOnComplete`. -/
def recordGuessHook (gameState : GameState) (playerKey : String)
    (isCorrect : Bool) : RecordGuessResult :=
  if gameState.gameStatus = GameStatus.won ∨ gameState.gameStatus = GameStatus.lost then
    { newState := gameState, isGameOver := true,
      won := gameState.gameStatus == GameStatus.won }
  else
    let newGuesses := gameState.guesses ++ [playerKey]
    let isLastGuess : Bool := decide (MAX_GUESSES ≤ newGuesses.length)
    let won := isCorrect
    let lost := !isCorrect && isLastGuess
    let isGameOver := won || lost
    let newStatus :=
      if won then GameStatus.won
      else if lost then GameStatus.lost
      else GameStatus.in_progress
    { newState := { gameState with guesses := newGuesses, gameStatus := newStatus },
      isGameOver := isGameOver, won := won }

/-- C2: from a non-terminal state with `k < MAX_GUESSES` recorded attempts,
submitting a guess appends it and sets the status to `won` when the guess is
the target (the win check precedes the exhaustion check, so winning on the
last allowed attempt is a win), to `lost` when it is not the target and
`k + 1 = MAX_GUESSES`, and to `in_progress` otherwise. -/
theorem recordGuess_transition (gs : GameState) (key : String) (isCorrect : Bool)
    (hwon : gs.gameStatus ≠ GameStatus.won) (hlost : gs.gameStatus ≠ GameStatus.lost)
    (hlt : gs.guesses.length < MAX_GUESSES) :
    (recordGuessHook gs key isCorrect).newState.guesses = gs.guesses ++ [key] ∧
    (recordGuessHook gs key isCorrect).newState.gameStatus =
      (if isCorrect then GameStatus.won
       else if gs.guesses.length + 1 = MAX_GUESSES then GameStatus.lost
       else GameStatus.in_progress) := by
  unfold recordGuessHook
  rw [if_neg (by tauto)]
  refine ⟨rfl, ?_⟩
  simp only [List.length_append, List.length_cons, List.length_nil]
  cases isCorrect with
  | true => simp
  | false =>
      simp only [Bool.not_false, Bool.true_and, if_false, Bool.false_eq_true]
      have h5 : MAX_GUESSES ≤ gs.guesses.length + 1 ↔
          gs.guesses.length + 1 = MAX_GUESSES := by
        unfold MAX_GUESSES at hlt ⊢
        omega
      by_cases hc : gs.guesses.length + 1 = MAX_GUESSES
      · simp [hc, h5.mpr hc]
      · have hlt2 : gs.guesses.length + 1 < MAX_GUESSES := by omega
        simp [hc, hlt2]

/-- A concrete in-progress state with four recorded guesses. -/
def stateFour : GameState :=
  { lastPlayedDate := some 0, lastPuzzleNumber := some 0,
    guesses := ["a", "b", "c", "d"], gameStatus := GameStatus.in_progress,
    modalShown := false }

/-- Witness for C2: an incorrect fifth guess on the boundary attempt. -/
theorem recordGuess_transition_witness :
    stateFour.gameStatus ≠ GameStatus.won ∧
    stateFour.gameStatus ≠ GameStatus.lost ∧
    stateFour.guesses.length < MAX_GUESSES ∧
    ((recordGuessHook stateFour "e" false).newState.guesses =
        stateFour.guesses ++ ["e"] ∧
     (recordGuessHook stateFour "e" false).newState.gameStatus =
        (if false then GameStatus.won
         else if stateFour.guesses.length + 1 = MAX_GUESSES then GameStatus.lost
         else GameStatus.in_progress)) :=
  ⟨by decide, by decide, by decide,
   recordGuess_transition stateFour "e" false (by decide) (by decide) (by decide)⟩

/-- C3: submitting a guess to a terminal state is a no-op in both
`recordGuess` implementations: the persisted-state version of
`dailyPuzzle.js` and the `useDailyPuzzle` hook both return the existing
state with no attempt appended and no field changed. -/
theorem terminal_guess_noop (s : GameState) (key : String) (isCorrect : Bool)
    (h : s.gameStatus = GameStatus.won ∨ s.gameStatus = GameStatus.lost) :
    recordGuess s key = s ∧ (recordGuessHook s key isCorrect).newState = s := by
  constructor
  · unfold recordGuess
    rcases h with h | h <;> rw [h] <;> simp
  · unfold recordGuessHook
    rw [if_pos h]

/-- A concrete won (terminal) state. -/
def stateWon : GameState :=
  { lastPlayedDate := some 0, lastPuzzleNumber := some 0,
    guesses := ["a", "kohli"], gameStatus := GameStatus.won,
    modalShown := false }

/-- Witness for C3 at a concrete terminal state. -/
theorem terminal_guess_noop_witness :
    (stateWon.gameStatus = GameStatus.won ∨ stateWon.gameStatus = GameStatus.lost) ∧
    recordGuess stateWon "x" = stateWon ∧
    (recordGuessHook stateWon "x" true).newState = stateWon :=
  ⟨Or.inl rfl, terminal_guess_noop stateWon "x" true (Or.inl rfl)⟩

/-- The persisted statistics record of `dailyPuzzle.js`
(`getDefaultStats`).  The guess distribution is a JavaScript array indexed
by `guessCount - 1`; it is embedded as a total function `Int → Nat` so that
the `(dist[i] || 0)` read of a missing slot is the value `0`. -/
structure Stats where
  gamesPlayed : Nat
  gamesWon : Nat
  currentStreak : Nat
  maxStreak : Nat
  guessDistribution : Int → Nat
  lastWinDate : Option Int

/-- `updateStatsOnComplete(won, guessCount)` from `dailyPuzzle.js`, with the
effective date passed explicitly as the day offset `today` (the source reads
it from the clock); `yesterday` is `today - 1` as computed by the
`setDate(getDate() - 1)` calendar arithmetic. -/
def updateStatsOnComplete (won : Bool) (guessCount : Nat) (today : Int)
    (stats : Stats) : Stats :=
  let s1 := { stats with gamesPlayed := stats.gamesPlayed + 1 }
  if won then
    let idx : Int := (guessCount : Int) - 1
    let s2 := { s1 with
      gamesWon := s1.gamesWon + 1
      guessDistribution :=
        Function.update s1.guessDistribution idx (s1.guessDistribution idx + 1) }
    let yesterday : Int := today - 1
    let s3 :=
      if stats.lastWinDate = some yesterday then
        { s2 with currentStreak := s2.currentStreak + 1 }
      else if stats.lastWinDate ≠ some today then
        { s2 with currentStreak := 1 }
      else s2
    { s3 with maxStreak := max s3.maxStreak s3.currentStreak,
              lastWinDate := some today }
  else
    { s1 with currentStreak := 0 }

/-- C4: the terminal-transition stats update increments `gamesPlayed`; on a
win it increments `gamesWon` and `guessDistribution[attemptsUsed - 1]`,
extends the streak by one when `lastWinDate` is the day before the effective
date, resets it to 1 when `lastWinDate` is neither yesterday nor today, then
sets `maxStreak = max(maxStreak, currentStreak)` and `lastWinDate = today`;
on a loss it zeroes `currentStreak` and leaves `gamesWon`, the distribution,
`maxStreak` and `lastWinDate` unchanged. -/
theorem stats_update_correct (stats : Stats) (won : Bool) (guessCount : Nat)
    (today : Int) :
    (updateStatsOnComplete won guessCount today stats).gamesPlayed =
        stats.gamesPlayed + 1 ∧
    (won = true →
      (updateStatsOnComplete won guessCount today stats).gamesWon =
          stats.gamesWon + 1 ∧
      (∀ i : Int, (updateStatsOnComplete won guessCount today stats).guessDistribution i =
          (if i = (guessCount : Int) - 1 then stats.guessDistribution i + 1
           else stats.guessDistribution i)) ∧
      (stats.lastWinDate = some (today - 1) →
        (updateStatsOnComplete won guessCount today stats).currentStreak =
            stats.currentStreak + 1) ∧
      (stats.lastWinDate ≠ some (today - 1) → stats.lastWinDate ≠ some today →
        (updateStatsOnComplete won guessCount today stats).currentStreak = 1) ∧
      (updateStatsOnComplete won guessCount today stats).maxStreak =
          max stats.maxStreak
            (updateStatsOnComplete won guessCount today stats).currentStreak ∧
      (updateStatsOnComplete won guessCount today stats).lastWinDate =
          some today) ∧
    (won = false →
      (updateStatsOnComplete won guessCount today stats).currentStreak = 0 ∧
      (updateStatsOnComplete won guessCount today stats).gamesWon = stats.gamesWon ∧
      (∀ i : Int, (updateStatsOnComplete won guessCount today stats).guessDistribution i =
          stats.guessDistribution i) ∧
      (updateStatsOnComplete won guessCount today stats).maxStreak = stats.maxStreak ∧
      (updateStatsOnComplete won guessCount today stats).lastWinDate =
          stats.lastWinDate) := by
  cases won with
  | false => simp [updateStatsOnComplete]
  | true =>
      have heq : updateStatsOnComplete true guessCount today stats =
          { gamesPlayed := stats.gamesPlayed + 1
            gamesWon := stats.gamesWon + 1
            currentStreak :=
              if stats.lastWinDate = some (today - 1) then stats.currentStreak + 1
              else if stats.lastWinDate ≠ some today then 1
              else stats.currentStreak
            maxStreak :=
              max stats.maxStreak
                (if stats.lastWinDate = some (today - 1) then stats.currentStreak + 1
                 else if stats.lastWinDate ≠ some today then 1
                 else stats.currentStreak)
            guessDistribution :=
              Function.update stats.guessDistribution ((guessCount : Int) - 1)
                (stats.guessDistribution ((guessCount : Int) - 1) + 1)
            lastWinDate := some today } := by
        unfold updateStatsOnComplete
        by_cases hy : stats.lastWinDate = some (today - 1)
        · simp [hy]
        · by_cases ht : stats.lastWinDate = some today
          · have hne : ¬ (today = today - 1) := by omega
            simp [hy, ht, hne]
          · simp [hy, ht]
      rw [heq]
      refine ⟨rfl, fun _ => ⟨rfl, ?_, ?_, ?_, rfl, rfl⟩, fun h => absurd h (by decide)⟩
      · intro i
        by_cases hi : i = (guessCount : Int) - 1
        · simp [hi, Function.update]
        · simp [Function.update, hi]
      · intro hy
        simp [hy]
      · intro hy ht
        simp [hy, ht]

/-- A concrete stats record: one previous win yesterday (day 9). -/
def statsPrev : Stats :=
  { gamesPlayed := 3, gamesWon := 1, currentStreak := 1, maxStreak := 1,
    guessDistribution := fun _ => 0, lastWinDate := some 9 }

/-- Witness for C4: a win with 2 guesses on day 10 after a win on day 9
extends the streak. -/
theorem stats_update_correct_witness :
    (updateStatsOnComplete true 2 10 statsPrev).gamesPlayed = 4 ∧
    (updateStatsOnComplete true 2 10 statsPrev).gamesWon = 2 ∧
    (updateStatsOnComplete true 2 10 statsPrev).currentStreak = 2 ∧
    (updateStatsOnComplete true 2 10 statsPrev).guessDistribution 1 = 1 ∧
    (updateStatsOnComplete true 2 10 statsPrev).lastWinDate = some 10 := by
  have h := stats_update_correct statsPrev true 2 10
  have hwin := h.2.1 rfl
  have hdist := hwin.2.1 1
  have hstreak := hwin.2.2.1 (by decide)
  refine ⟨h.1, hwin.1, ?_, ?_, hwin.2.2.2.2.2⟩
  · rw [hstreak]
    norm_num [statsPrev]
  · rw [hdist]
    norm_num [statsPrev]

/-- The error kind the specification assigns to selection from an empty
catalog.  The source never constructs it; it exists here so the claimed
error behaviour can be stated against the embedding. -/
inductive SelectError
  | CatalogEmpty
  deriving DecidableEq, Repr

/-- `getPuzzleIndex(puzzleNumber, totalPuzzles)` from `dailyPuzzle.js`:
`puzzleNumber % totalPuzzles`, with no emptiness check.  In JavaScript
`n % 0` is `NaN`; `none` models that non-numeric result. -/
def getPuzzleIndex (puzzleNumber totalPuzzles : Nat) : Option Nat :=
  if totalPuzzles = 0 then none else some (puzzleNumber % totalPuzzles)

/-- The `{ puzzle, puzzleNumber, puzzleIndex }` record returned by
`getPuzzleForToday`. -/
structure PuzzleForToday where
  puzzle : Option Puzzle
  puzzleNumber : Nat
  puzzleIndex : Option Nat
  deriving DecidableEq, Repr

/-- `getPuzzleForToday(puzzles)` from `dailyPuzzle.js`, with the current
puzzle number passed explicitly (the source reads it from the clock).
`puzzles[NaN]` and any out-of-range access are `undefined`, modelled as
`none`. -/
def getPuzzleForToday (puzzleNumber : Nat) (puzzles : List Puzzle) :
    PuzzleForToday :=
  let puzzleIndex := getPuzzleIndex puzzleNumber puzzles.length
  { puzzle :=
      match puzzleIndex with
      | some i => puzzles.get? i
      | none => none
    puzzleNumber := puzzleNumber
    puzzleIndex := puzzleIndex }

/-- `getPuzzleForToday` wrapped in `Except`: the source contains no
`throw`, so every run is `Except.ok`.  The wrapper makes the claimed
`CatalogEmpty` failure expressible. -/
def getPuzzleForTodayE (puzzleNumber : Nat) (puzzles : List Puzzle) :
    Except SelectError PuzzleForToday :=
  Except.ok (getPuzzleForToday puzzleNumber puzzles)

/-- C5 counterexample: selection from the empty catalog does not fail with
a `CatalogEmpty` error — it succeeds with `NaN` index and `undefined`
puzzle. -/
theorem catalog_empty_cex :
    getPuzzleForTodayE 0 [] ≠ Except.error SelectError.CatalogEmpty ∧
    getPuzzleForTodayE 0 [] =
      Except.ok { puzzle := none, puzzleNumber := 0, puzzleIndex := none } := by
  constructor
  · intro h
    exact Except.noConfusion h
  · rfl

/-- C5 (amended): for every puzzle number, selection from an empty catalog
raises no error: `getPuzzleIndex` yields `NaN` (`none`), and
`getPuzzleForToday` returns a record whose `puzzle` field is `undefined`
(`none`). -/
theorem catalog_empty_behaviour (n : Nat) :
    getPuzzleIndex n 0 = none ∧
    (getPuzzleForToday n []).puzzle = none ∧
    getPuzzleForTodayE n [] = Except.ok (getPuzzleForToday n []) := by
  refine ⟨rfl, ?_, rfl⟩
  simp [getPuzzleForToday, getPuzzleIndex]

/-- A stored leaderboard row as read by `useLeaderboard` (`won`,
`guesses_used`, `created_at`, `discord_user_id`); `created_at` is the
submission instant in milliseconds. -/
structure LBEntry where
  discord_user_id : String
  won : Bool
  guesses_used : Nat
  created_at : Nat
  deriving DecidableEq, Repr

/-- The comparator of `getTopEntries`: ascending `guesses_used`, ties
broken by ascending `created_at`. -/
def entryOrder (a b : LBEntry) : Prop :=
  a.guesses_used < b.guesses_used ∨
    (a.guesses_used = b.guesses_used ∧ a.created_at ≤ b.created_at)

instance : DecidableRel entryOrder := fun a b => by
  unfold entryOrder
  infer_instance

instance : IsTotal LBEntry entryOrder :=
  ⟨by intro a b; unfold entryOrder; omega⟩

instance : IsTrans LBEntry entryOrder :=
  ⟨by intro a b c; unfold entryOrder; omega⟩

/-- The filter-and-sort pipeline of `getTopEntries` in `useLeaderboard.js`
(also repeated verbatim in `LeaderboardModal.jsx`): keep `won` entries,
sort by the comparator.  JavaScript `Array.prototype.sort` is a stable
comparison sort; it is embedded as insertion sort over `entryOrder`. -/
def rankEntries (entries : List LBEntry) : List LBEntry :=
  List.insertionSort entryOrder (entries.filter (fun e => e.won))

/-- `getTopEntries(n)`: the ranked list truncated to its first `n` rows. -/
def getTopEntries (entries : List LBEntry) (n : Nat) : List LBEntry :=
  (rankEntries entries).take n

/-- C7: the ranking retains exactly the `won == true` entries (it is a
permutation of that filter, so no losing entry appears), and the result is
sorted ascending by `guesses_used` with ties broken ascending by
`created_at`, so of two winning entries with equal guess count the
earlier-submitted one ranks first. -/
theorem ranking_winners_sorted (entries : List LBEntry) :
    (rankEntries entries).Perm (entries.filter (fun e => e.won)) ∧
    (∀ e ∈ rankEntries entries, e.won = true) ∧
    List.Sorted entryOrder (rankEntries entries) := by
  refine ⟨List.perm_insertionSort entryOrder _, ?_, List.sorted_insertionSort entryOrder _⟩
  intro e he
  have hmem : e ∈ entries.filter (fun x => x.won) :=
    (List.perm_insertionSort entryOrder _).subset he
  exact (List.mem_filter.mp hmem).2

/-- Spec scenario entry: a win with 2 guesses submitted at 10:00. -/
def entryTen : LBEntry :=
  { discord_user_id := "u1", won := true, guesses_used := 2, created_at := 600 }

/-- Spec scenario entry: a win with 2 guesses submitted at 10:05. -/
def entryTenFive : LBEntry :=
  { discord_user_id := "u2", won := true, guesses_used := 2, created_at := 605 }

/-- A losing entry used to check that losses never rank. -/
def entryLoss : LBEntry :=
  { discord_user_id := "u3", won := false, guesses_used := 5, created_at := 10 }

/-- Witness for C7 on the spec tie-break scenario: with both winners at 2
guesses, the 10:00 submission ranks before the 10:05 one and the loss is
dropped. -/
theorem ranking_winners_sorted_witness :
    rankEntries [entryTenFive, entryLoss, entryTen] = [entryTen, entryTenFive] ∧
    entryTen.won = true := by
  have h := ranking_winners_sorted [entryTenFive, entryLoss, entryTen]
  refine ⟨by decide, ?_⟩
  exact h.2.1 entryTen (by decide)

/-- The `for (const entry of puzzleLeaderboard)` loop of
`calculatePercentile`, accumulating `betterCount`: a winning entry counts
when the caller's result is a loss, or when both won and the entry used
strictly fewer guesses. -/
def betterLoop (guessesUsed : Nat) (won : Bool) :
    List LBEntry → Nat → Nat
  | [], betterCount => betterCount
  | entry :: rest, betterCount =>
      betterLoop guessesUsed won rest
        (if entry.won && !won then betterCount + 1
         else if entry.won && won && decide (entry.guesses_used < guessesUsed) then
           betterCount + 1
         else betterCount)

/-- `Math.round(num / den)` for non-negative operands:
`⌊num / den + 1 / 2⌋`. -/
def jsRound (num den : Nat) : Nat :=
  (2 * num + den) / (2 * den)

/-- `calculatePercentile(guessesUsed, won)` from `useLeaderboard.js`:
returns `null` on an empty leaderboard, otherwise
`Math.round((total - betterCount) / total * 100)`. -/
def calculatePercentile (guessesUsed : Nat) (won : Bool)
    (puzzleLeaderboard : List LBEntry) : Option Nat :=
  if puzzleLeaderboard.length = 0 then none
  else
    let betterCount := betterLoop guessesUsed won puzzleLeaderboard 0
    some (jsRound ((puzzleLeaderboard.length - betterCount) * 100)
      puzzleLeaderboard.length)

/-- C8 counterexample: on an empty leaderboard the percentile is `null`,
not `0`. -/
theorem percentile_empty_cex :
    calculatePercentile 3 true [] ≠ some 0 ∧
    calculatePercentile 3 true [] = none := by
  constructor
  · intro h
    exact Option.noConfusion h
  · rfl

/-- `betterLoop` counts the entries that did better. -/
theorem betterLoop_eq_count (g : Nat) (w : Bool) (l : List LBEntry) :
    ∀ acc : Nat, betterLoop g w l acc =
      acc + (l.filter (fun e => e.won && (!w || decide (e.guesses_used < g)))).length := by
  induction l with
  | nil => intro acc; simp [betterLoop]
  | cons e rest ih =>
      intro acc
      rw [betterLoop, ih]
      cases hw : e.won with
      | false => simp [hw]
      | true =>
          cases w with
          | false => simp [hw, List.filter]; omega
          | true =>
              by_cases hg : e.guesses_used < g
              · simp [hw, hg, List.filter]
                omega
              · simp [hw, hg, List.filter]

/-- C8 (amended): the percentile is
`round((total - betterCount) / total * 100)` with `betterCount` counting
winning entries when the given result is a loss and winning entries with
strictly fewer guesses when it is a win — except that for `total == 0`
the function returns `null`, not `0`. -/
theorem percentile_formula (g : Nat) (w : Bool) (board : List LBEntry) :
    (board = [] → calculatePercentile g w board = none) ∧
    (board ≠ [] → calculatePercentile g w board =
      some (jsRound
        ((board.length -
          (board.filter (fun e => e.won && (!w || decide (e.guesses_used < g)))).length) * 100)
        board.length)) := by
  constructor
  · intro h
    subst h
    rfl
  · intro h
    unfold calculatePercentile
    rw [if_neg (by simpa using h)]
    rw [betterLoop_eq_count g w board 0]
    simp

/-- Witness for C8: a single winning two-guess entry; a caller who also won
in two guesses is beaten by nobody, percentile 100. -/
theorem percentile_formula_witness :
    ([entryTen] : List LBEntry) ≠ [] ∧
    calculatePercentile 2 true [entryTen] = some 100 := by
  refine ⟨by decide, ?_⟩
  rw [(percentile_formula 2 true [entryTen]).2 (by decide)]
  decide

/-- The leaderboard row constructed by `submitToLeaderboard(guessesUsed,
won)` in `useLeaderboard.js`. -/
structure SubmissionEntry where
  discord_user_id : String
  discord_username : String
  discord_avatar : Option String
  guild_id : Option String
  puzzle_date : String
  puzzle_number : Nat
  guesses_used : Nat
  won : Bool
  deriving DecidableEq, Repr

/-- `submitToLeaderboard(guessesUsed, won)`: bails out (no entry built)
when the Discord user id or puzzle date is missing (falsy) or a submission
is in flight or already done; otherwise builds the entry with
`guesses_used = won ? guessesUsed : 5` and a `null` avatar. -/
def submitToLeaderboard (discordUserId discordUsername : String)
    (guildId : Option String) (puzzleDate : String) (puzzleNumber : Nat)
    (isSubmitting hasSubmitted : Bool) (guessesUsed : Nat) (won : Bool) :
    Option SubmissionEntry :=
  if discordUserId = "" ∨ puzzleDate = "" ∨ isSubmitting = true ∨ hasSubmitted = true then
    none
  else
    some {
      discord_user_id := discordUserId
      discord_username := discordUsername
      discord_avatar := none
      guild_id := guildId
      puzzle_date := puzzleDate
      puzzle_number := puzzleNumber
      guesses_used := if won then guessesUsed else 5
      won := won }

/-- C10: every entry stored through the submission hook carries
`guesses_used` equal to the caller's guess count on a win and the constant
`5` on a loss, whatever guess count the caller passed. -/
theorem submission_guesses_used (duid dun : String) (gid : Option String)
    (pd : String) (pn : Nat) (isub hsub : Bool) (g : Nat) (won : Bool)
    (e : SubmissionEntry)
    (h : submitToLeaderboard duid dun gid pd pn isub hsub g won = some e) :
    (won = true → e.guesses_used = g) ∧ (won = false → e.guesses_used = 5) := by
  unfold submitToLeaderboard at h
  by_cases hc : duid = "" ∨ pd = "" ∨ isub = true ∨ hsub = true
  · rw [if_pos hc] at h
    exact Option.noConfusion h
  · rw [if_neg hc] at h
    injection h with h
    subst h
    cases won with
    | true => exact ⟨fun _ => by simp, fun hf => absurd hf (by decide)⟩
    | false => exact ⟨fun ht => absurd ht (by decide), fun _ => by simp⟩

/-- Witness for C10: a losing submission with a caller-supplied count of 3
stores 5. -/
theorem submission_guesses_used_witness :
    submitToLeaderboard "u1" "name" none "2026-01-15" 0 false false 3 false =
      some { discord_user_id := "u1", discord_username := "name",
             discord_avatar := none, guild_id := none,
             puzzle_date := "2026-01-15", puzzle_number := 0,
             guesses_used := 5, won := false } ∧
    (false = false →
      ({ discord_user_id := "u1", discord_username := "name",
         discord_avatar := none, guild_id := none,
         puzzle_date := "2026-01-15", puzzle_number := 0,
         guesses_used := 5, won := false } : SubmissionEntry).guesses_used = 5) :=
  ⟨by decide,
   (submission_guesses_used "u1" "name" none "2026-01-15" 0 false false 3 false _
     (by decide)).2⟩

/-- One row of the archive listing built by `generateLocalArchive`:
`puzzle_date` is the day offset from the epoch date, `puzzle_number` the
resolved puzzle number. -/
structure ArchiveItem where
  puzzle_date : Nat
  puzzle_number : Nat
  deriving DecidableEq, Repr

/-- Milliseconds per day, the divisor of `getPuzzleNumber`. -/
def msPerDay : Nat := 86400000

/-- `getPuzzleNumber(dateStr)` from `dailyPuzzle.js` with the date given as
a day offset from the epoch: `Math.max(0, ⌊(date - epoch) / day⌋)`; at UTC
midnights the division is exact, so it is `max 0` of the offset. -/
def getPuzzleNumber (dateDay : Int) : Nat :=
  (max dateDay 0).toNat

/-- The `while (current < today)` loop of `generateLocalArchive` in
`ArchiveModal.jsx`: `current` starts at the day after the epoch and a row
is pushed for each UTC midnight strictly before `now`; `nowMs` is the
current instant in milliseconds after the epoch midnight, `d` the day
offset of `current`. -/
def archiveLoop (nowMs : Nat) (d : Nat) : List ArchiveItem :=
  if h : d * msPerDay < nowMs then
    { puzzle_date := d, puzzle_number := getPuzzleNumber (d : Int) } ::
      archiveLoop nowMs (d + 1)
  else []
termination_by nowMs - d * msPerDay
decreasing_by
  simp only [msPerDay] at h ⊢
  omega

/-- `generateLocalArchive()` from `ArchiveModal.jsx`: the loop from day 1
(`current.setDate(getDate() + 1)` before the loop), reversed to
newest-first.  A clock earlier than the epoch midnight behaves like
`nowMs = 0` (empty listing), so `nowMs : Nat` loses nothing. -/
def generateLocalArchive (nowMs : Nat) : List ArchiveItem :=
  (archiveLoop nowMs 1).reverse

/-- The listing as the claim states it, for comparison: one row per date
from the epoch (day 0) inclusive up to the current date (exclusive),
newest first.  Modelled from the claim's words, not from the source. -/
def claimLocalArchive (nowMs : Nat) : List ArchiveItem :=
  ((List.range (nowMs / msPerDay)).map
    (fun d => { puzzle_date := d, puzzle_number := getPuzzleNumber (d : Int) })).reverse

/-- C9 counterexample: at noon of the day after the epoch
(`nowMs = 1.5` days) the generated listing is the single row for day 1 —
the current date, which the claim excludes — while the claimed listing is
the single row for day 0, the epoch date, which the code never emits. -/
theorem archive_listing_cex :
    generateLocalArchive 129600000 =
      [{ puzzle_date := 1, puzzle_number := 1 }] ∧
    claimLocalArchive 129600000 =
      [{ puzzle_date := 0, puzzle_number := 0 }] ∧
    generateLocalArchive 129600000 ≠ claimLocalArchive 129600000 := by
  have h1 : generateLocalArchive 129600000 =
      [{ puzzle_date := 1, puzzle_number := 1 }] := by
    unfold generateLocalArchive
    rw [archiveLoop, dif_pos (by norm_num [msPerDay])]
    rw [archiveLoop, dif_neg (by norm_num [msPerDay])]
    rfl
  have h2 : claimLocalArchive 129600000 =
      [{ puzzle_date := 0, puzzle_number := 0 }] := by
    unfold claimLocalArchive
    norm_num [msPerDay]
    rfl
  refine ⟨h1, h2, ?_⟩
  rw [h1, h2]
  decide

/-- Two archive rows with equal fields are equal. -/
theorem ArchiveItem.ext2 (a b : ArchiveItem)
    (h1 : a.puzzle_date = b.puzzle_date)
    (h2 : a.puzzle_number = b.puzzle_number) : a = b := by
  cases a
  cases b
  simp_all

/-- `getPuzzleNumber` of a non-negative day offset is that offset. -/
theorem getPuzzleNumber_natCast (d : Nat) : getPuzzleNumber (d : Int) = d := by
  unfold getPuzzleNumber
  omega

/-- Membership in the archive loop from day `d`: exactly the rows for days
`d ≤ date` whose UTC midnight lies strictly before `now`, each carrying its
own day offset as puzzle number. -/
theorem archiveLoop_mem (nowMs : Nat) :
    ∀ m d : Nat, nowMs - d * msPerDay ≤ m →
      ∀ it : ArchiveItem, it ∈ archiveLoop nowMs d ↔
        (d ≤ it.puzzle_date ∧ it.puzzle_date * msPerDay < nowMs ∧
         it.puzzle_number = it.puzzle_date) := by
  intro m
  induction m with
  | zero =>
      intro d hm it
      rw [archiveLoop, dif_neg (by simp only [msPerDay] at hm ⊢; omega)]
      simp only [List.not_mem_nil, false_iff]
      rintro ⟨hd, hlt, _⟩
      have hmul : d * msPerDay ≤ it.puzzle_date * msPerDay :=
        Nat.mul_le_mul_right msPerDay hd
      simp only [msPerDay] at hm hlt hmul
      omega
  | succ m ih =>
      intro d hm it
      rw [archiveLoop]
      by_cases hc : d * msPerDay < nowMs
      · rw [dif_pos hc]
        have hrec := ih (d + 1)
          (by simp only [msPerDay] at hm hc ⊢; omega) it
        simp only [List.mem_cons, hrec]
        constructor
        · rintro (heq | ⟨hd, hlt, hnum⟩)
          · subst heq
            refine ⟨Nat.le_refl d, hc, getPuzzleNumber_natCast d⟩
          · exact ⟨Nat.le_of_succ_le hd, hlt, hnum⟩
        · rintro ⟨hd, hlt, hnum⟩
          rcases Nat.eq_or_lt_of_le hd with heq | hlt2
          · left
            refine ArchiveItem.ext2 it _ heq.symm ?_
            rw [hnum, ← heq]
            exact (getPuzzleNumber_natCast d).symm
          · right
            exact ⟨hlt2, hlt, hnum⟩
      · rw [dif_neg hc]
        simp only [List.not_mem_nil, false_iff]
        rintro ⟨hd, hlt, _⟩
        have hmul : d * msPerDay ≤ it.puzzle_date * msPerDay :=
          Nat.mul_le_mul_right msPerDay hd
        simp only [msPerDay] at hc hlt hmul
        omega

/-- The archive loop lists days in strictly increasing order. -/
theorem archiveLoop_pairwise (nowMs : Nat) :
    ∀ m d : Nat, nowMs - d * msPerDay ≤ m →
      (archiveLoop nowMs d).Pairwise
        (fun a b => a.puzzle_date < b.puzzle_date) := by
  intro m
  induction m with
  | zero =>
      intro d hm
      rw [archiveLoop, dif_neg (by simp only [msPerDay] at hm ⊢; omega)]
      exact List.Pairwise.nil
  | succ m ih =>
      intro d hm
      rw [archiveLoop]
      by_cases hc : d * msPerDay < nowMs
      · rw [dif_pos hc]
        have hm2 : nowMs - (d + 1) * msPerDay ≤ m := by
          simp only [msPerDay] at hm hc ⊢
          omega
        refine List.Pairwise.cons ?_ (ih (d + 1) hm2)
        intro b hb
        have := ((archiveLoop_mem nowMs m (d + 1) hm2 b).mp hb).1
        simpa using Nat.lt_of_succ_le this
      · rw [dif_neg hc]
        exact List.Pairwise.nil

/-- C9 (amended): the locally generated archive listing contains exactly
one row per calendar date from the day after the epoch (inclusive) up to
the current instant — a date is listed iff its UTC midnight is strictly
before `now`, so the current date itself is included once `now` passes UTC
midnight and the epoch date is never listed — each row resolved to its day
offset and equal puzzle number, ordered newest first. -/
theorem archive_listing_characterization (nowMs : Nat) :
    (∀ it : ArchiveItem, it ∈ generateLocalArchive nowMs ↔
        (1 ≤ it.puzzle_date ∧ it.puzzle_date * msPerDay < nowMs ∧
         it.puzzle_number = it.puzzle_date)) ∧
    (generateLocalArchive nowMs).Pairwise
      (fun a b => b.puzzle_date < a.puzzle_date) := by
  constructor
  · intro it
    unfold generateLocalArchive
    rw [List.mem_reverse]
    exact archiveLoop_mem nowMs nowMs 1 (by omega) it
  · unfold generateLocalArchive
    rw [List.pairwise_reverse]
    exact archiveLoop_pairwise nowMs nowMs 1 (by omega)

/-- Witness for C9 (amended): at noon of day 1 the listing holds the row
for day 1 and not the epoch row. -/
theorem archive_listing_characterization_witness :
    ({ puzzle_date := 1, puzzle_number := 1 } : ArchiveItem) ∈
        generateLocalArchive 129600000 ∧
    ({ puzzle_date := 0, puzzle_number := 0 } : ArchiveItem) ∉
        generateLocalArchive 129600000 := by
  have h := archive_listing_characterization 129600000
  constructor
  · exact (h.1 { puzzle_date := 1, puzzle_number := 1 }).mpr
      (by norm_num [msPerDay])
  · intro hmem
    have := (h.1 { puzzle_date := 0, puzzle_number := 0 }).mp hmem
    simp at this

end Bowldem
